import Mathlib

/-!
# Verification of `graphcast/data_utils.py`

Shallow embedding of the temporal windowing, lead-time normalization and
dataset-extension logic of `graphcast/data_utils.py`.

Conventions of the embedding:

* Timedeltas (the `time` coordinate) and datetimes (the `datetime`
  coordinate) are integers counting nanoseconds, matching pandas
  `Timedelta`/`datetime64[ns]` exact integer semantics.
* A dataset is modelled at the coordinate/variable-name level: the `time`
  coordinate, the `datetime` coordinate (its batch row 0, matching the
  source's `datetime[0]` accesses; the data model allows at most one batch
  dimension), the `level` coordinate, presence flags for the `lat` and
  `lon` coordinates, and the list of data-variable names.  The numeric
  payloads of the data variables are not modelled: no claim under
  verification mentions them, only coordinates, variable sets and the
  control flow of the error checks.
* Fallible Python code paths (`IndexError` from out-of-bounds indexing,
  `KeyError` from label selection, `ValueError` validations and `assert`
  failures) are modelled with `Except PyError`.
* `np.mod(x, 1.0)` on exact values is `Int.fract`; integer `np.mod` with a
  positive modulus is `Int.emod` (both are floored remainders).
-/

namespace DataUtils

/-- Kinds of Python exceptions raised by the code paths of `data_utils`. -/
inductive PyError where
  | valueError
  | keyError
  | indexError
  | assertionError
deriving DecidableEq, Repr

/-- The hard-coded `supported_forcing_vars` set inside `extend_dataset_in_time`. -/
def supported_forcing_vars : List String :=
  ["year_progress_sin", "year_progress_cos", "day_progress_sin", "day_progress_cos"]

/-- `_DERIVED_VARS` from the source module. -/
def derived_vars : List String :=
  ["day_progress", "day_progress_sin", "day_progress_cos",
   "year_progress", "year_progress_sin", "year_progress_cos"]

/-- `TISR` from the source module. -/
def TISR : String := "toa_incident_solar_radiation"

/-- Coordinate-level model of an `xarray.Dataset` as used by `data_utils`.
`time` holds timedeltas in nanoseconds; `datetime`, when present, holds the
batch-row-0 datetimes in nanoseconds (same length as `time` in well-formed
data); `level` holds the pressure levels; `hasLon`/`hasLat` record presence
of the `lon`/`lat` coordinates; `vars` is the list of data-variable names. -/
structure Dataset where
  time : List Int
  datetime : Option (List Int)
  level : List Int
  hasLon : Bool
  hasLat : Bool
  vars : List String
deriving DecidableEq, Repr

/-- Name-level effect of `featurize_progress` for the year-progress family:
`add_derived_vars` inserts the three year-progress variables only when
`year_progress` is not already a data variable. -/
def add_year_progress_names (vs : List String) : List String :=
  if "year_progress" ∈ vs then vs
  else vs ++ ["year_progress", "year_progress_sin", "year_progress_cos"]

/-- Name-level effect for the day-progress family, mirroring
`add_year_progress_names`. -/
def add_day_progress_names (vs : List String) : List String :=
  if "day_progress" ∈ vs then vs
  else vs ++ ["day_progress", "day_progress_sin", "day_progress_cos"]

/-- `add_derived_vars`: requires the `datetime` and `lon` coordinates
(raising `ValueError` otherwise), then inserts the missing year/day progress
features.  Modelled at the variable-name level; the mutation-in-place of the
source is rendered as returning the updated dataset. -/
def add_derived_vars (d : Dataset) : Except PyError Dataset :=
  if d.datetime.isSome ∧ d.hasLon = true then
    .ok { d with vars := add_day_progress_names (add_year_progress_names d.vars) }
  else .error .valueError

/-- `add_tisr_var`: no-op when the TISR variable exists, otherwise requires
`datetime`, `lat` and `lon` coordinates and inserts the TISR variable.  The
batch squeeze/re-expand of the source does not change names or coordinates
and is not modelled. -/
def add_tisr_var (d : Dataset) : Except PyError Dataset :=
  if TISR ∈ d.vars then .ok d
  else if d.datetime.isSome ∧ d.hasLat = true ∧ d.hasLon = true then
    .ok { d with vars := d.vars ++ [TISR] }
  else .error .valueError

/-- The `TargetLeadTimes` union type of the source: a single timedelta, a
collection (list/tuple/set) of timedeltas, or a Python `slice` whose start
and step may be absent.  A `slice` stop of `None` is not representable:
the source immediately coerces the stop with `pd.Timedelta`. -/
inductive TargetLeadTimes where
  | single (t : Int)
  | multiple (ts : List Int)
  | range (start : Option Int) (stop : Int) (step : Option Int)
deriving DecidableEq, Repr

/-- Result of `_process_target_lead_times_and_get_duration`: either a list of
timedeltas or a slice whose start is now always present. -/
inductive NormalizedLeadTimes where
  | times (ts : List Int)
  | range (start : Int) (stop : Int) (step : Option Int)
deriving DecidableEq, Repr

/-- The list branch of `_process_target_lead_times_and_get_duration`:
coerce every entry to a timedelta, sort ascending (Python `list.sort`,
modelled by the stable `insertionSort`; on integers any ascending stable
sort yields the same list), and take the last element as the duration.
`target_lead_times[-1]` on an empty list is an `IndexError`. -/
def process_lead_time_list (ts : List Int) : Except PyError (NormalizedLeadTimes × Int) :=
  let sorted := List.insertionSort (fun a b => a ≤ b) ts
  match sorted.getLast? with
  | some d => .ok (.times sorted, d)
  | none => .error .indexError

/-- `_process_target_lead_times_and_get_duration`.  A slice with absent
start gets start `pd.Timedelta(1, "ns")`, i.e. the integer 1; its stop is
the target duration.  A single value is wrapped into a length-1 list and
processed like a collection. -/
def process_target_lead_times_and_get_duration :
    TargetLeadTimes → Except PyError (NormalizedLeadTimes × Int)
  | .range none stop step => .ok (.range 1 stop step, stop)
  | .range (some s) stop step => .ok (.range s stop step, stop)
  | .single t => process_lead_time_list [t]
  | .multiple ts => process_lead_time_list ts

/-- Converts a normalized lead-time value back into the `TargetLeadTimes`
union: the climate orchestrator passes the already-normalized value to
`extract_inputs_targets_forcings`, which normalizes it a second time. -/
def NormalizedLeadTimes.toTargetLeadTimes : NormalizedLeadTimes → TargetLeadTimes
  | .times ts => .multiple ts
  | .range a b st => .range (some a) b st

/-- `pandas.Index.get_loc` for a unique-labelled time coordinate: position of
the first occurrence of label `t`. -/
def indexOfTime (t : Int) : List Int → Option Nat
  | [] => none
  | x :: xs => if x = t then some 0 else (indexOfTime t xs).map (· + 1)

/-- Positional selection of a list of coordinate entries. -/
def iselList (l : List Int) (idxs : List Nat) : List Int :=
  idxs.map fun i => l.getD i 0

/-- Positions picked by label-based `.sel` along the time coordinate.  A
list selector resolves every label (raising `KeyError`, modelled as `none`,
when a label is missing); a slice selector keeps the positions whose label
lies in the closed interval `[start, stop]`, with an integer slice step
applied positionally (the time coordinate is assumed monotonic, as the
source docstring requires a fixed time resolution). -/
def sel_indices (s : NormalizedLeadTimes) (times : List Int) : Option (List Nat) :=
  match s with
  | .times ts => ts.mapM fun t => indexOfTime t times
  | .range a b none =>
      some ((List.range times.length).filter fun i : Nat =>
        decide (a ≤ times.getD i 0 ∧ times.getD i 0 ≤ b))
  | .range a b (some k) =>
      if k ≤ 0 then none
      else some ((((List.range times.length).filter fun i : Nat =>
        decide (a ≤ times.getD i 0 ∧ times.getD i 0 ≤ b)).enum.filterMap
          fun p => if (p.1 : Int) % k = 0 then some p.2 else none))

/-- Restriction of a dataset to the given time positions: both the `time`
and the `datetime` coordinates are sliced along the time dimension. -/
def selTimeDataset (d : Dataset) (idxs : List Nat) : Dataset :=
  { d with time := iselList d.time idxs,
           datetime := d.datetime.map fun dt => iselList dt idxs }

/-- `extract_input_target_times`.  The lead times are normalized first; in
climate mode the first two timesteps become the inputs and the third the
target (`isel` slices `[0, 2)` and `[2, 3)`), with no recentering.  In the
default mode the time coordinate is recentered by
`time + target_duration - time[-1]`, the targets are label-selected at the
normalized lead times, and the inputs are label-selected over
`[-input_duration + 1ns, 0]` (both endpoints inclusive, making the window
half-open at the early end). -/
def extract_input_target_times (dataset : Dataset) (input_duration : Int)
    (target_lead_times : TargetLeadTimes) (climate : Bool) :
    Except PyError (Dataset × Dataset) :=
  match process_target_lead_times_and_get_duration target_lead_times with
  | .error e => .error e
  | .ok (tlt, target_duration) =>
    if climate then
      .ok ({ dataset with time := dataset.time.take 2,
                          datetime := dataset.datetime.map fun dt => dt.take 2 },
           { dataset with time := (dataset.time.drop 2).take 1,
                          datetime := dataset.datetime.map fun dt => (dt.drop 2).take 1 })
    else
      match dataset.time.getLast? with
      | none => .error .indexError
      | some lastT =>
        let newTime := dataset.time.map fun t => t + target_duration - lastT
        let ds := { dataset with time := newTime }
        match sel_indices tlt newTime with
        | none => .error .keyError
        | some tidx =>
          let targets := selTimeDataset ds tidx
          let iidx := (List.range newTime.length).filter fun i : Nat =>
            decide (-input_duration + 1 ≤ newTime.getD i 0 ∧ newTime.getD i 0 ≤ 0)
          let inputs := selTimeDataset ds iidx
          .ok (inputs, targets)

/-- The `assert set(forcing_variables) == supported_forcing_vars` guard at
the top of `extend_dataset_in_time`, as a decidable set equality. -/
def forcingSetOk (forcing_variables : List String) : Bool :=
  (forcing_variables.all fun v => decide (v ∈ supported_forcing_vars)) &&
    (supported_forcing_vars.all fun v => decide (v ∈ forcing_variables))

/-- The drops performed near the end of `extend_dataset_in_time`: each of
the four supported forcing variables, plus `day_progress` and
`year_progress`, is removed when present. -/
def drop_progress_vars (vs : List String) : List String :=
  vs.filter fun v =>
    decide (¬ (v ∈ supported_forcing_vars ∨ v = "day_progress" ∨ v = "year_progress"))

/-- Body of `extend_dataset_in_time` after the forcing-variable assertion.
`timestep = time[1] - time[0]` is computed unconditionally (an
`IndexError` when the time axis is shorter than 2); when more than one
timestep exists, every consecutive spacing must equal `timestep`
(`assert np.all(timestep == time_upper - time_lower)`).  The extended time
is `arange(required_number_of_steps) * timestep + time[0]`.  When a
`datetime` coordinate exists, the extension is re-anchored at
`datetime[0][0]` after normalizing a non-zero first time offset, the
original datetime row must be an exact prefix of the extension (an
`assert`), and a NumPy length mismatch in that comparison is a
`ValueError`.  The zero-filled payload construction and the prefix copy
(`extend_time` / `copy_data`) change no coordinate and no variable name and
are therefore not modelled; the final forcing-variable drop and
`add_derived_vars` call are. -/
def extend_body (dataset : Dataset) (required_number_of_steps : Nat) :
    Except PyError Dataset :=
  match dataset.time[1]? with
  | none => .error .indexError
  | some t1 =>
  match dataset.time[0]? with
  | none => .error .indexError
  | some t0 =>
  let timestep := t1 - t0
  if 1 < dataset.time.length ∧
      ¬ (∀ i ∈ List.range (dataset.time.length - 1),
        dataset.time.getD (i + 1) 0 - dataset.time.getD i 0 = timestep) then
    .error .assertionError
  else
    let extended_time := (List.range required_number_of_steps).map
      fun i : Nat => (i : Int) * timestep + t0
    match dataset.datetime with
    | some dt =>
      match dt[0]? with
      | none => .error .indexError
      | some dt0 =>
        let normalized := if extended_time.getD 0 0 ≠ 0
          then extended_time.map fun t => t - extended_time.getD 0 0
          else extended_time
        let extended_datetime := normalized.map fun t => t + dt0
        if dt.length ≤ extended_datetime.length then
          if dt = extended_datetime.take dt.length then
            add_derived_vars
              { dataset with time := extended_time,
                             datetime := some extended_datetime,
                             vars := drop_progress_vars dataset.vars }
          else .error .assertionError
        else .error .valueError
    | none =>
      add_derived_vars
        { dataset with time := extended_time, datetime := none,
                       vars := drop_progress_vars dataset.vars }

/-- `extend_dataset_in_time`: asserts the forcing-variable set, then runs
the extension body. -/
def extend_dataset_in_time (dataset : Dataset) (required_number_of_steps : Nat)
    (forcing_variables : List String) : Except PyError Dataset :=
  if forcingSetOk forcing_variables then extend_body dataset required_number_of_steps
  else .error .assertionError

/-- `inputs[list(input_variables)]`-style projection: every requested name
must be a variable of the dataset (`KeyError` otherwise), and the result
keeps exactly the requested variables. -/
def project_vars (d : Dataset) (names : List String) : Except PyError Dataset :=
  if names.all fun v => decide (v ∈ d.vars) then .ok { d with vars := names }
  else .error .keyError

/-- The steps of `extract_inputs_targets_forcings` that run before the
forcing/target overlap validation: pressure-level selection, conditional
derived-variable and TISR injection, dropping the `datetime` coordinate
(`drop_vars` raises `ValueError` when it is absent), and the delegation to
`extract_input_target_times`. -/
def extract_itf_pre (dataset : Dataset) (forcing_variables : List String)
    (pressure_levels : List Int) (input_duration : Int)
    (target_lead_times : TargetLeadTimes) (climate : Bool) :
    Except PyError (Dataset × Dataset) :=
  if ¬ (pressure_levels.all fun l => decide (l ∈ dataset.level)) then
    .error .keyError
  else
    let d1 := { dataset with level := pressure_levels }
    match (if forcing_variables.any fun v => decide (v ∈ derived_vars)
        then add_derived_vars d1 else .ok d1) with
    | .error e => .error e
    | .ok d2 =>
      match (if forcing_variables.any fun v => decide (v = TISR)
          then add_tisr_var d2 else .ok d2) with
      | .error e => .error e
      | .ok d3 =>
        match d3.datetime with
        | none => .error .valueError
        | some _ =>
          extract_input_target_times { d3 with datetime := none }
            input_duration target_lead_times climate

/-- `extract_inputs_targets_forcings`: runs the preliminary steps, validates
that the forcing and target variable sets are disjoint (`ValueError` on
overlap), then projects the three outputs onto their declared variable
lists (the forcings are selected from the targets window). -/
def extract_inputs_targets_forcings (dataset : Dataset)
    (input_variables target_variables forcing_variables : List String)
    (pressure_levels : List Int) (input_duration : Int)
    (target_lead_times : TargetLeadTimes) (climate : Bool) :
    Except PyError (Dataset × Dataset × Dataset) :=
  match extract_itf_pre dataset forcing_variables pressure_levels
      input_duration target_lead_times climate with
  | .error e => .error e
  | .ok pr =>
    if forcing_variables.any fun v => decide (v ∈ target_variables) then
      .error .valueError
    else
      match project_vars pr.1 input_variables with
      | .error e => .error e
      | .ok inputs =>
        match project_vars pr.2 forcing_variables with
        | .error e => .error e
        | .ok forcings =>
          match project_vars pr.2 target_variables with
          | .error e => .error e
          | .ok targets => .ok (inputs, targets, forcings)

/-- The branch guard of `extract_inputs_targets_forcings_climate`: with
`required_number_steps` overwritten by the hard-coded 3, the source
delegates directly exactly when `required_number_steps < len(time)`, so the
extender runs unless `3 < len(time)`. -/
def climate_uses_extender (dataset : Dataset) : Bool :=
  decide (¬ (3 < dataset.time.length))

/-- `extract_inputs_targets_forcings_climate`: normalizes the lead times (a
first computation of `required_number_steps` from the target duration is
immediately overwritten by the constant 3 and is not modelled), then either
delegates directly in climate mode, or extends the dataset to 3 steps first
and asserts afterwards that the input window has exactly 2 timesteps
(`shape != 0 and shape == 2` is equivalent to `shape == 2`).  In both paths
the already-normalized lead times are what is passed on. -/
def extract_inputs_targets_forcings_climate (dataset : Dataset)
    (input_variables target_variables forcing_variables : List String)
    (pressure_levels : List Int) (input_duration : Int)
    (target_lead_times : TargetLeadTimes) :
    Except PyError (Dataset × Dataset × Dataset) :=
  match process_target_lead_times_and_get_duration target_lead_times with
  | .error e => .error e
  | .ok p =>
    if climate_uses_extender dataset then
      match extend_dataset_in_time dataset 3 forcing_variables with
      | .error e => .error e
      | .ok extended =>
        match extract_inputs_targets_forcings extended input_variables
            target_variables forcing_variables pressure_levels input_duration
            p.1.toTargetLeadTimes true with
        | .error e => .error e
        | .ok r =>
          if r.1.time.length = 2 then .ok r else .error .assertionError
    else
      extract_inputs_targets_forcings dataset input_variables target_variables
        forcing_variables pressure_levels input_duration p.1.toTargetLeadTimes true

/-- `SEC_PER_DAY` from the source. -/
def SEC_PER_DAY : Int := 3600 * 24

/-- `day_progress_greenwich = np.mod(seconds_since_epoch, SEC_PER_DAY) /
SEC_PER_DAY` for one time value, over exact rationals. -/
def day_progress_greenwich (seconds_since_epoch : Int) : ℚ :=
  ((seconds_since_epoch % SEC_PER_DAY : Int) : ℚ) / (SEC_PER_DAY : ℚ)

/-- `np.deg2rad(longitude) / (2 * np.pi)` for one longitude.  Over exact
arithmetic `(longitude * π / 180) / (2 * π) = longitude / 360`; the
cancellation is proved in `deg2rad_div_two_pi`. -/
def longitude_offset (longitude : ℚ) : ℚ := longitude / 360

/-- `get_day_progress` over exact rationals: for each time and each
longitude, `np.mod(day_progress_greenwich + longitude_offset, 1.0)`, with
`mod 1` as `Int.fract`.  The result is the (times × longitudes) matrix of
the source's 2D broadcast. -/
def get_day_progress (seconds_since_epoch : List Int) (longitude : List ℚ) :
    List (List ℚ) :=
  seconds_since_epoch.map fun s =>
    longitude.map fun lon =>
      Int.fract (day_progress_greenwich s + longitude_offset lon)

/-! ## Helper lemmas -/

/-- Exact cancellation justifying `longitude_offset`: converting degrees to
radians and dividing by a full turn is division by 360. -/
theorem deg2rad_div_two_pi (x : ℝ) : x * Real.pi / 180 / (2 * Real.pi) = x / 360 := by
  have h : Real.pi ≠ 0 := Real.pi_ne_zero
  field_simp
  ring

/-- On a regularly spaced time coordinate, entry `i` is
`time[0] + i * (time[1] - time[0])`. -/
theorem time_getD_of_regular (time : List Int)
    (hreg : ∀ i, i + 1 < time.length →
      time.getD (i + 1) 0 - time.getD i 0 = time.getD 1 0 - time.getD 0 0) :
    ∀ i, i < time.length →
      time.getD i 0 = time.getD 0 0 + i * (time.getD 1 0 - time.getD 0 0) := by
  intro i
  induction i with
  | zero => intro _; simp
  | succ n ih =>
    intro h
    have h1 := hreg n h
    have h2 := ih (by omega)
    have h3 : ((n + 1 : Nat) : Int) * (time.getD 1 0 - time.getD 0 0)
        = (n : Int) * (time.getD 1 0 - time.getD 0 0)
          + (time.getD 1 0 - time.getD 0 0) := by push_cast; ring
    omega

/-- Taking a prefix of a mapped range is mapping over the shorter range. -/
theorem take_map_range {α : Type} (f : Nat → α) {m n : Nat} (h : m ≤ n) :
    ((List.range n).map f).take m = (List.range m).map f := by
  rw [← List.map_take, List.take_range, Nat.min_eq_left h]

/-- Entry `i < n` of `(List.range n).map f` is `f i`. -/
theorem getD_map_range {α : Type} [Inhabited α] (f : Nat → α) {n i : Nat} (h : i < n)
    (d : α) : ((List.range n).map f).getD i d = f i := by
  rw [List.getD_eq_getElem?_getD, List.getElem?_map, List.getElem?_range h]
  rfl

/-- Mapping `getD` back over index positions filtered from `range` is the
value-level filter of the list. -/
theorem filter_range_map_getD (l : List Int) (p : Int → Bool) :
    (((List.range l.length).filter fun i => p (l.getD i 0)).map fun i => l.getD i 0)
      = l.filter p := by
  induction l with
  | nil => simp
  | cons x xs ih =>
    have hcomm : (((List.range xs.length).map Nat.succ).filter
          fun i => p ((x :: xs).getD i 0))
        = ((List.range xs.length).filter fun i => p (xs.getD i 0)).map Nat.succ := by
      rw [List.filter_map Nat.succ (List.range xs.length)]
      refine congrArg (List.map Nat.succ ·) (List.filter_congr fun i _ => ?_)
      simp only [Function.comp_apply, List.getD_cons_succ]
    have hmain : ((((List.range xs.length).filter fun i => p (xs.getD i 0)).map
          Nat.succ).map fun i => (x :: xs).getD i 0) = xs.filter p := by
      rw [List.map_map]
      have hc : ((fun i => (x :: xs).getD i 0) ∘ Nat.succ) = fun i => xs.getD i 0 := by
        funext i
        simp only [Function.comp_apply, List.getD_cons_succ]
      rw [hc]
      exact ih
    cases hx : p x with
    | true =>
      rw [List.length_cons, List.range_succ_eq_map,
        List.filter_cons_of_pos (by simpa using hx), List.map_cons,
        List.getD_cons_zero, hcomm, hmain, List.filter_cons_of_pos hx]
    | false =>
      rw [List.length_cons, List.range_succ_eq_map,
        List.filter_cons_of_neg (by simpa using hx), hcomm, hmain,
        List.filter_cons_of_neg (by simp [hx])]

/-- A position found by `indexOfTime` holds the looked-up label. -/
theorem indexOfTime_getD (t : Int) (l : List Int) (i : Nat)
    (h : indexOfTime t l = some i) : l.getD i 0 = t := by
  induction l generalizing i with
  | nil => simp [indexOfTime] at h
  | cons x xs ih =>
    by_cases hx : x = t
    · simp [indexOfTime, hx] at h
      subst h
      simpa using hx
    · simp only [indexOfTime, if_neg hx, Option.map_eq_some'] at h
      obtain ⟨j, hj, rfl⟩ := h
      simpa [List.getD_cons_succ] using ih j hj

/-- Resolving a list of labels through `indexOfTime` and selecting those
positions returns the labels themselves. -/
theorem mapM_indexOfTime_isel (times : List Int) :
    ∀ (ts : List Int) (idxs : List Nat),
      (ts.mapM fun t => indexOfTime t times) = some idxs →
      iselList times idxs = ts := by
  intro ts
  induction ts with
  | nil =>
    intro idxs h
    simp only [List.mapM_nil, Option.pure_def, Option.some.injEq] at h
    subst h
    rfl
  | cons t ts ih =>
    intro idxs h
    simp only [List.mapM_cons, Option.pure_def, Option.bind_eq_bind,
      Option.bind_eq_some, Option.some.injEq] at h
    obtain ⟨i, hi, rest, hrest, rfl⟩ := h
    simp only [iselList, List.map_cons]
    rw [indexOfTime_getD t times i hi]
    exact congrArg (t :: ·) (ih rest hrest)

/-- In a list sorted ascending, every member is at most the last element. -/
theorem sorted_le_getLast (l : List Int) (hs : l.Sorted (· ≤ ·)) (x : Int)
    (hx : x ∈ l) (d : Int) (hd : l.getLast? = some d) : x ≤ d := by
  induction l with
  | nil => simp at hx
  | cons y ys ih =>
    rw [List.sorted_cons] at hs
    match hys : ys with
    | [] =>
      simp at hx hd
      omega
    | z :: zs =>
      rw [List.getLast?_cons_cons] at hd
      rcases List.mem_cons.mp hx with rfl | hmem
      · have hz : d ∈ z :: zs := by
          have := List.mem_of_mem_getLast? hd
          exact this
        exact hs.1 d hz
      · exact ih hs.2 hmem hd

/-! ## Claim theorems -/

/-- C8: a lead-time range (slice) whose start is unspecified is normalized
to a range starting one nanosecond past zero (the integer 1 in the
nanosecond encoding), preserving the given stop and step, and the target
duration equals the range's stop value. -/
theorem range_default_start (stop : Int) (step : Option Int) :
    process_target_lead_times_and_get_duration (.range none stop step)
      = .ok (.range 1 stop step, stop) := rfl

/-- C7: a collection of lead times is coerced to durations and sorted
ascending without removing duplicates (the result is a permutation of the
input of the same length), and the target duration is the last, maximal
element; a single non-collection value is wrapped into a length-1 sequence
before this processing. -/
theorem process_collection_sorted (ts : List Int) (h : ts ≠ []) :
    ∃ sorted dur,
      process_target_lead_times_and_get_duration (.multiple ts)
        = .ok (.times sorted, dur) ∧
      sorted.Perm ts ∧ sorted.Sorted (· ≤ ·) ∧ sorted.length = ts.length ∧
      sorted.getLast? = some dur ∧ dur ∈ ts ∧ (∀ x ∈ ts, x ≤ dur) ∧
      (∀ t : Int, process_target_lead_times_and_get_duration (.single t)
        = .ok (.times [t], t)) := by
  have hperm : (List.insertionSort (fun a b : Int => a ≤ b) ts).Perm ts :=
    List.perm_insertionSort (fun a b : Int => a ≤ b) ts
  have hsorted : (List.insertionSort (fun a b : Int => a ≤ b) ts).Sorted
      (fun a b : Int => a ≤ b) :=
    List.sorted_insertionSort (fun a b : Int => a ≤ b) ts
  have hne : List.insertionSort (fun a b : Int => a ≤ b) ts ≠ [] := by
    intro hnil
    apply h
    have hlen := hperm.length_eq
    rw [hnil] at hlen
    exact List.length_eq_zero.mp hlen.symm
  have hlast : (List.insertionSort (fun a b : Int => a ≤ b) ts).getLast?
      = some ((List.insertionSort (fun a b : Int => a ≤ b) ts).getLast hne) :=
    List.getLast?_eq_getLast _ hne
  refine ⟨List.insertionSort (fun a b : Int => a ≤ b) ts,
    (List.insertionSort (fun a b : Int => a ≤ b) ts).getLast hne, ?_, hperm,
    hsorted, hperm.length_eq, hlast, ?_, ?_, fun t => rfl⟩
  · show process_lead_time_list ts = _
    unfold process_lead_time_list
    simp only [hlast]
  · exact hperm.mem_iff.mp (List.getLast_mem hne)
  · intro x hx
    exact sorted_le_getLast _ hsorted x (hperm.mem_iff.mpr hx) _ hlast

/-- Witness for C7 at the concrete collection `[3, 1, 2]`. -/
theorem process_collection_sorted_witness :
    ∃ sorted dur,
      process_target_lead_times_and_get_duration (.multiple [3, 1, 2])
        = .ok (.times sorted, dur) ∧
      sorted.Perm [3, 1, 2] ∧ sorted.Sorted (· ≤ ·) ∧
      sorted.length = ([3, 1, 2] : List Int).length ∧
      sorted.getLast? = some dur ∧ dur ∈ ([3, 1, 2] : List Int) ∧
      (∀ x ∈ ([3, 1, 2] : List Int), x ≤ dur) ∧
      (∀ t : Int, process_target_lead_times_and_get_duration (.single t)
        = .ok (.times [t], t)) :=
  process_collection_sorted [3, 1, 2] (by decide)

/-- C6: `extend_dataset_in_time` checks that its forcing variables, taken
as a set, are exactly the four progress sin/cos features: any other set
fails fast with the assertion error before any extension work, and a set
equal to the supported one passes the check, the call proceeding with the
extension body (which no longer depends on the forcing argument). -/
theorem extend_forcing_set_check (d : Dataset) (n : Nat) (fv : List String) :
    (forcingSetOk fv = true ↔ ∀ s, s ∈ fv ↔ s ∈ supported_forcing_vars) ∧
    (forcingSetOk fv = false →
      extend_dataset_in_time d n fv = .error .assertionError) ∧
    (forcingSetOk fv = true →
      extend_dataset_in_time d n fv = extend_body d n) := by
  refine ⟨?_, fun hf => ?_, fun hf => ?_⟩
  · constructor
    · intro hok s
      simp only [forcingSetOk, Bool.and_eq_true, List.all_eq_true,
        decide_eq_true_eq] at hok
      exact ⟨fun hs => hok.1 s hs, fun hs => hok.2 s hs⟩
    · intro hall
      simp only [forcingSetOk, Bool.and_eq_true, List.all_eq_true,
        decide_eq_true_eq]
      exact ⟨fun s hs => (hall s).mp hs, fun s hs => (hall s).mpr hs⟩
  · unfold extend_dataset_in_time
    rw [if_neg (by simp [hf])]
  · unfold extend_dataset_in_time
    rw [if_pos hf]

/-- Witness for C6: a wrong set fails the assertion, the exact supported
set passes on to the extension body. -/
theorem extend_forcing_set_check_witness :
    extend_dataset_in_time ⟨[0], none, [], true, true, []⟩ 3 ["t"]
      = .error .assertionError ∧
    extend_dataset_in_time ⟨[0], none, [], true, true, []⟩ 3 supported_forcing_vars
      = extend_body ⟨[0], none, [], true, true, []⟩ 3 :=
  ⟨(extend_forcing_set_check ⟨[0], none, [], true, true, []⟩ 3 ["t"]).2.1 rfl,
   (extend_forcing_set_check ⟨[0], none, [], true, true, []⟩ 3
     supported_forcing_vars).2.2 rfl⟩

/-- C10: with a valid forcing set, a dataset whose time coordinate has
exactly one entry makes `extend_dataset_in_time` fail with an out-of-bounds
`IndexError` while computing `timestep = time[1] - time[0]` — before the
regular-spacing assertion (which would be an assertion failure, not an
index error) and before any extension work.  A time axis of length at least
2 is thus an undocumented precondition. -/
theorem extend_single_step_index_error (d : Dataset) (n : Nat)
    (fv : List String) (hf : forcingSetOk fv = true)
    (h1 : d.time.length = 1) :
    extend_dataset_in_time d n fv = .error .indexError := by
  have ht : d.time[1]? = none := List.getElem?_eq_none_iff.mpr (by omega)
  unfold extend_dataset_in_time extend_body
  rw [if_pos hf, ht]

/-- Witness for C10 at a concrete one-step dataset. -/
theorem extend_single_step_index_error_witness :
    extend_dataset_in_time ⟨[5], some [100], [], true, true, ["t"]⟩ 4
      supported_forcing_vars = .error .indexError :=
  extend_single_step_index_error ⟨[5], some [100], [], true, true, ["t"]⟩ 4
    supported_forcing_vars rfl rfl

/-- C5: whenever the forcing-variable list and the target-variable list
share at least one name, `extract_inputs_targets_forcings` never returns a
result triple, and whenever the steps preceding the validation succeed the
raised error is the overlap `ValueError`. -/
theorem orchestrator_overlap_never_returns (d : Dataset)
    (iv tv fv : List String) (pl : List Int) (D : Int)
    (tlt : TargetLeadTimes) (c : Bool)
    (hov : ∃ v, v ∈ fv ∧ v ∈ tv) :
    (∀ r, extract_inputs_targets_forcings d iv tv fv pl D tlt c ≠ .ok r) ∧
    (∀ pr, extract_itf_pre d fv pl D tlt c = .ok pr →
      extract_inputs_targets_forcings d iv tv fv pl D tlt c
        = .error .valueError) := by
  have hany : (fv.any fun v => decide (v ∈ tv)) = true := by
    obtain ⟨v, h1, h2⟩ := hov
    exact List.any_eq_true.mpr ⟨v, h1, decide_eq_true h2⟩
  unfold extract_inputs_targets_forcings
  cases hpre : extract_itf_pre d fv pl D tlt c with
  | error e =>
    exact ⟨fun r => by simp [hpre], fun pr hpr => by simp [hpre] at hpr⟩
  | ok pr =>
    exact ⟨fun r => by simp [hpre, hany], fun pr2 hpr => by simp [hpre, hany]⟩

/-- Witness for C5: a concrete call whose preliminary steps succeed ends in
the overlap `ValueError`. -/
theorem orchestrator_overlap_never_returns_witness :
    extract_inputs_targets_forcings ⟨[0, 1, 2], some [10, 11, 12], [500], true, true, ["t"]⟩
      ["t"] ["t"] ["t"] [500] 1 (.single 1) true = .error .valueError :=
  (orchestrator_overlap_never_returns
    ⟨[0, 1, 2], some [10, 11, 12], [500], true, true, ["t"]⟩
    ["t"] ["t"] ["t"] [500] 1 (.single 1) true
    ⟨"t", by decide, by decide⟩).2 _ rfl

/-- C2: in non-climate mode `extract_input_target_times` first recenters
the time coordinate to `old_time + target_duration - old_time[-1]` (so the
last original timestep maps to the target duration), then selects the
targets at exactly the normalized lead times and the inputs over the
half-open window `(-input_duration, 0]` — inclusive of lead time 0 and
exclusive of the point exactly `input_duration` earlier. -/
theorem extract_nonclimate_windows (d : Dataset) (D : Int)
    (tlt : TargetLeadTimes) (ntlt : NormalizedLeadTimes) (dur lastT : Int)
    (idxs : List Nat)
    (hp : process_target_lead_times_and_get_duration tlt = .ok (ntlt, dur))
    (hl : d.time.getLast? = some lastT)
    (hs : sel_indices ntlt (d.time.map fun t => t + dur - lastT) = some idxs) :
    ∃ inputs targets,
      extract_input_target_times d D tlt false = .ok (inputs, targets) ∧
      inputs.time = (d.time.map fun t => t + dur - lastT).filter
        (fun t => decide (-D < t ∧ t ≤ 0)) ∧
      targets.time = iselList (d.time.map fun t => t + dur - lastT) idxs ∧
      (∀ ts, ntlt = .times ts → targets.time = ts) ∧
      (d.time.map fun t => t + dur - lastT).getLast? = some dur := by
  have hred : extract_input_target_times d D tlt false
      = .ok (selTimeDataset { d with time := d.time.map fun t => t + dur - lastT }
              ((List.range (d.time.map fun t => t + dur - lastT).length).filter
                fun i : Nat =>
                  decide (-D + 1 ≤ (d.time.map fun t => t + dur - lastT).getD i 0 ∧
                    (d.time.map fun t => t + dur - lastT).getD i 0 ≤ 0)),
             selTimeDataset { d with time := d.time.map fun t => t + dur - lastT }
               idxs) := by
    simp only [extract_input_target_times, hp, hl, hs, Bool.false_eq_true,
      if_false]
  refine ⟨_, _, hred, ?_, rfl, ?_, ?_⟩
  · exact (filter_range_map_getD (d.time.map fun t => t + dur - lastT)
        fun t => decide (-D + 1 ≤ t ∧ t ≤ 0)).trans
      (List.filter_congr fun x _ => by
        rw [decide_eq_decide]
        omega)
  · intro ts hts
    subst hts
    simp only [sel_indices] at hs
    exact mapM_indexOfTime_isel (d.time.map fun t => t + dur - lastT) ts idxs hs
  · rw [List.getLast?_map, hl, Option.map_some']
    congr 1
    omega

/-- Witness for C2 at a concrete three-step dataset with a single lead
time. -/
theorem extract_nonclimate_windows_witness :
    ∃ inputs targets,
      extract_input_target_times ⟨[0, 1, 2], none, [], true, true, ["t"]⟩ 2
        (.single 1) false = .ok (inputs, targets) ∧
      inputs.time = (([0, 1, 2] : List Int).map fun t => t + 1 - 2).filter
        (fun t => decide (-2 < t ∧ t ≤ 0)) ∧
      targets.time = iselList (([0, 1, 2] : List Int).map fun t => t + 1 - 2) [2] ∧
      (∀ ts, NormalizedLeadTimes.times [1] = .times ts → targets.time = ts) ∧
      (([0, 1, 2] : List Int).map fun t => t + 1 - 2).getLast? = some 1 :=
  extract_nonclimate_windows ⟨[0, 1, 2], none, [], true, true, ["t"]⟩ 2
    (.single 1) (.times [1]) 1 2 [2] rfl rfl rfl

/-- C4: in climate mode `extract_input_target_times` returns the dataset
restricted to its first two timesteps as inputs and to its third timestep
as targets, for every input duration and lead-time request, with no
recentering of the time coordinate (the returned coordinates hold the
original values). -/
theorem extract_climate_fixed_window (d : Dataset) (D : Int)
    (tlt : TargetLeadTimes) (p : NormalizedLeadTimes × Int)
    (hp : process_target_lead_times_and_get_duration tlt = .ok p)
    (h3 : 3 ≤ d.time.length) :
    extract_input_target_times d D tlt true
      = .ok ({ d with time := [d.time.getD 0 0, d.time.getD 1 0],
                      datetime := d.datetime.map fun dt => dt.take 2 },
             { d with time := [d.time.getD 2 0],
                      datetime := d.datetime.map fun dt => (dt.drop 2).take 1 }) ∧
    d.time.take 2 = [d.time.getD 0 0, d.time.getD 1 0] := by
  obtain ⟨tm, dtm, lv, lo, la, vs⟩ := d
  rcases tm with _ | ⟨a, tm⟩
  · simp at h3
  rcases tm with _ | ⟨b, tm⟩
  · simp at h3
  rcases tm with _ | ⟨c, tm⟩
  · simp at h3
  constructor
  · simp only [extract_input_target_times, hp, if_true]
    rfl
  · rfl

/-- Witness for C4 at a concrete five-step dataset and an arbitrary lead
time of 40. -/
theorem extract_climate_fixed_window_witness :
    extract_input_target_times
        ⟨[0, 1, 2, 3, 4], some [10, 11, 12, 13, 14], [], true, true, ["t"]⟩ 7
        (.single 40) true
      = .ok ({ time := [0, 1], datetime := some [10, 11], level := [],
               hasLon := true, hasLat := true, vars := ["t"] },
             { time := [2], datetime := some [12], level := [],
               hasLon := true, hasLat := true, vars := ["t"] }) ∧
    ([0, 1, 2, 3, 4] : List Int).take 2 = [0, 1] :=
  extract_climate_fixed_window
    ⟨[0, 1, 2, 3, 4], some [10, 11, 12, 13, 14], [], true, true, ["t"]⟩ 7
    (.single 40) (.times [40], 40) rfl (by decide)

/-- C3 counterexample: on a dataset with exactly 3 timesteps — not fewer
than 3 — the climate orchestrator still invokes the extender: with an
empty forcing list the call dies in the extender's forcing-set assertion,
while the direct climate delegation the claim predicts would succeed. -/
theorem climate_three_steps_still_extends :
    climate_uses_extender
        ⟨[0, 1, 2], some [10, 11, 12], [500], true, true, ["t"]⟩ = true ∧
    ¬ ((⟨[0, 1, 2], some [10, 11, 12], [500], true, true,
        ["t"]⟩ : Dataset).time.length < 3) ∧
    extract_inputs_targets_forcings_climate
        ⟨[0, 1, 2], some [10, 11, 12], [500], true, true, ["t"]⟩
        ["t"] ["t"] [] [500] 1 (.single 1) = .error .assertionError ∧
    extract_inputs_targets_forcings
        ⟨[0, 1, 2], some [10, 11, 12], [500], true, true, ["t"]⟩
        ["t"] ["t"] [] [500] 1 (.single 1) true
      = .ok ({ time := [0, 1], datetime := none, level := [500],
               hasLon := true, hasLat := true, vars := ["t"] },
             { time := [2], datetime := none, level := [500],
               hasLon := true, hasLat := true, vars := ["t"] },
             { time := [2], datetime := none, level := [500],
               hasLon := true, hasLat := true, vars := [] }) :=
  ⟨rfl, by decide, rfl, rfl⟩

/-- C3 amended: `extract_inputs_targets_forcings_climate` invokes the
dataset extender exactly when the dataset's time dimension has at most 3
timesteps (fewer than 4); with more than 3 timesteps it delegates directly
to `extract_inputs_targets_forcings` in climate mode, passing along the
already-normalized lead times. -/
theorem climate_extender_iff_le_three (d : Dataset)
    (iv tv fv : List String) (pl : List Int) (D : Int)
    (tlt : TargetLeadTimes) (p : NormalizedLeadTimes × Int)
    (hp : process_target_lead_times_and_get_duration tlt = .ok p) :
    (climate_uses_extender d = true ↔ d.time.length ≤ 3) ∧
    (3 < d.time.length →
      extract_inputs_targets_forcings_climate d iv tv fv pl D tlt
        = extract_inputs_targets_forcings d iv tv fv pl D
            p.1.toTargetLeadTimes true) := by
  constructor
  · simp only [climate_uses_extender, decide_eq_true_eq]
    omega
  · intro h3
    have hc : climate_uses_extender d = false := by
      simp only [climate_uses_extender, decide_eq_false_iff_not]
      omega
    simp only [extract_inputs_targets_forcings_climate, hp, hc,
      Bool.false_eq_true, if_false]

/-- Witness for C3's amended statement at a concrete four-step dataset. -/
theorem climate_extender_iff_le_three_witness :
    (climate_uses_extender
        ⟨[0, 1, 2, 3], some [10, 11, 12, 13], [500], true, true, ["t"]⟩ = true
      ↔ (⟨[0, 1, 2, 3], some [10, 11, 12, 13], [500], true, true,
          ["t"]⟩ : Dataset).time.length ≤ 3) ∧
    extract_inputs_targets_forcings_climate
        ⟨[0, 1, 2, 3], some [10, 11, 12, 13], [500], true, true, ["t"]⟩
        ["t"] ["t"] [] [500] 1 (.single 1)
      = extract_inputs_targets_forcings
          ⟨[0, 1, 2, 3], some [10, 11, 12, 13], [500], true, true, ["t"]⟩
          ["t"] ["t"] [] [500] 1 (.multiple [1]) true :=
  ⟨(climate_extender_iff_le_three
      ⟨[0, 1, 2, 3], some [10, 11, 12, 13], [500], true, true, ["t"]⟩
      ["t"] ["t"] [] [500] 1 (.single 1) (.times [1], 1) rfl).1,
   (climate_extender_iff_le_three
      ⟨[0, 1, 2, 3], some [10, 11, 12, 13], [500], true, true, ["t"]⟩
      ["t"] ["t"] [] [500] 1 (.single 1) (.times [1], 1) rfl).2 (by decide)⟩

/-- Entry `i < l.length` of a mapped list, through `getD`. -/
theorem getD_map_of_lt {α β : Type} (f : α → β) (l : List α) {i : Nat}
    (h : i < l.length) (d : β) (d2 : α) :
    (l.map f).getD i d = f (l.getD i d2) := by
  have h2 : l[i]? = some l[i] := List.getElem?_eq_getElem h
  rw [List.getD_eq_getElem?_getD, List.getElem?_map, h2,
    List.getD_eq_getElem?_getD, h2]
  rfl

/-- C9: over exact arithmetic, every entry of `get_day_progress` equals
`((seconds mod seconds_per_day) / seconds_per_day + longitude / 360) mod 1`,
lies in `[0, 1)`, and the output has shape
(number of times) × (number of longitudes). -/
theorem day_progress_formula (secs : List Int) (lons : List ℚ) (i j : Nat)
    (hi : i < secs.length) (hj : j < lons.length) :
    (get_day_progress secs lons).length = secs.length ∧
    (∀ row ∈ get_day_progress secs lons, row.length = lons.length) ∧
    ((get_day_progress secs lons).getD i []).getD j 0
      = Int.fract (((secs.getD i 0 % 86400 : Int) : ℚ) / 86400
          + lons.getD j 0 / 360) ∧
    0 ≤ ((get_day_progress secs lons).getD i []).getD j 0 ∧
    ((get_day_progress secs lons).getD i []).getD j 0 < 1 := by
  have hval : ((get_day_progress secs lons).getD i []).getD j 0
      = Int.fract (day_progress_greenwich (secs.getD i 0)
          + longitude_offset (lons.getD j 0)) := by
    unfold get_day_progress
    rw [getD_map_of_lt _ secs hi [] 0]
    exact getD_map_of_lt _ lons hj 0 0
  refine ⟨by simp [get_day_progress], ?_, ?_, ?_, ?_⟩
  · intro row hrow
    unfold get_day_progress at hrow
    obtain ⟨s, _, rfl⟩ := List.mem_map.mp hrow
    simp
  · rw [hval]
    unfold day_progress_greenwich longitude_offset SEC_PER_DAY
    norm_num
  · rw [hval]
    exact Int.fract_nonneg _
  · rw [hval]
    exact Int.fract_lt_one _

/-- Witness for C9 at two concrete times and two longitudes. -/
theorem day_progress_formula_witness :
    (get_day_progress [0, 90000] [0, 90]).length = ([0, 90000] : List Int).length ∧
    (∀ row ∈ get_day_progress [0, 90000] [0, 90],
      row.length = ([0, 90] : List ℚ).length) ∧
    ((get_day_progress [0, 90000] [0, 90]).getD 1 []).getD 1 0
      = Int.fract (((([0, 90000] : List Int).getD 1 0 % 86400 : Int) : ℚ) / 86400
          + ([0, 90] : List ℚ).getD 1 0 / 360) ∧
    0 ≤ ((get_day_progress [0, 90000] [0, 90]).getD 1 []).getD 1 0 ∧
    ((get_day_progress [0, 90000] [0, 90]).getD 1 []).getD 1 0 < 1 :=
  day_progress_formula [0, 90000] [0, 90] 1 1 (by decide) (by decide)

/-- C1: on a dataset whose time coordinate is regularly spaced with length
at least 2, whose datetime row is consistent with the time grid, and with a
required number of steps at least the original length,
`extend_dataset_in_time` succeeds, its new time coordinate is
`arange(required_number_of_steps) * timestep + time[0]`, and the first
`len(original)` entries of the new time and datetime coordinates exactly
equal the original dataset's corresponding entries. -/
theorem extend_time_prefix (d : Dataset) (n : Nat) (fv : List String)
    (dt : List Int)
    (hf : forcingSetOk fv = true)
    (hd : d.datetime = some dt)
    (hlon : d.hasLon = true)
    (h2 : 2 ≤ d.time.length)
    (hn : d.time.length ≤ n)
    (hreg : ∀ i, i + 1 < d.time.length →
      d.time.getD (i + 1) 0 - d.time.getD i 0
        = d.time.getD 1 0 - d.time.getD 0 0)
    (hlen : dt.length = d.time.length)
    (hcons : ∀ i, i < dt.length →
      dt.getD i 0 = dt.getD 0 0 + (d.time.getD i 0 - d.time.getD 0 0)) :
    ∃ e, extend_dataset_in_time d n fv = .ok e ∧
      e.time = (List.range n).map
        (fun i : Nat => (i : Int) * (d.time.getD 1 0 - d.time.getD 0 0)
          + d.time.getD 0 0) ∧
      e.time.take d.time.length = d.time ∧
      ∃ edt, e.datetime = some edt ∧ edt.take dt.length = dt := by
  have h1lt : 1 < d.time.length := by omega
  have h0n : 0 < n := by omega
  have e1 : d.time[1]? = some (d.time.getD 1 0) := by
    simp [List.getD_eq_getElem?_getD, List.getElem?_eq_getElem h1lt]
  have e0 : d.time[0]? = some (d.time.getD 0 0) := by
    simp [List.getD_eq_getElem?_getD,
      List.getElem?_eq_getElem (show 0 < d.time.length by omega)]
  have edt0 : dt[0]? = some (dt.getD 0 0) := by
    simp [List.getD_eq_getElem?_getD,
      List.getElem?_eq_getElem (show 0 < dt.length by omega)]
  have htime := time_getD_of_regular d.time hreg
  have hchk : (1 < d.time.length ∧
      ¬ (∀ i ∈ List.range (d.time.length - 1),
        d.time.getD (i + 1) 0 - d.time.getD i 0
          = d.time.getD 1 0 - d.time.getD 0 0)) = False := by
    refine eq_false ?_
    push_neg
    intro _ i hi
    exact hreg i (by rw [List.mem_range] at hi; omega)
  have ee0 : ((List.range n).map fun i : Nat =>
      (i : Int) * (d.time.getD 1 0 - d.time.getD 0 0)
        + d.time.getD 0 0).getD 0 0 = d.time.getD 0 0 := by
    rw [getD_map_range _ h0n]
    simp
  have hnorm : (if ((List.range n).map fun i : Nat =>
        (i : Int) * (d.time.getD 1 0 - d.time.getD 0 0)
          + d.time.getD 0 0).getD 0 0 ≠ 0 then
      ((List.range n).map fun i : Nat =>
        (i : Int) * (d.time.getD 1 0 - d.time.getD 0 0)
          + d.time.getD 0 0).map fun t =>
            t - ((List.range n).map fun i : Nat =>
              (i : Int) * (d.time.getD 1 0 - d.time.getD 0 0)
                + d.time.getD 0 0).getD 0 0
    else (List.range n).map fun i : Nat =>
      (i : Int) * (d.time.getD 1 0 - d.time.getD 0 0) + d.time.getD 0 0)
      = (List.range n).map fun i : Nat =>
          (i : Int) * (d.time.getD 1 0 - d.time.getD 0 0) := by
    rw [ee0]
    by_cases h0 : d.time.getD 0 0 = 0
    · rw [if_neg (fun hne => hne h0)]
      refine List.map_congr_left fun i _ => ?_
      rw [h0]
      ring
    · rw [if_pos h0, List.map_map]
      refine List.map_congr_left fun i _ => ?_
      simp only [Function.comp_apply]
      ring
  have hedt : ((( List.range n).map fun i : Nat =>
        (i : Int) * (d.time.getD 1 0 - d.time.getD 0 0)).map
          fun t => t + dt.getD 0 0)
      = (List.range n).map fun i : Nat =>
          (i : Int) * (d.time.getD 1 0 - d.time.getD 0 0) + dt.getD 0 0 := by
    rw [List.map_map]
    rfl
  have htake : dt = ((List.range n).map fun i : Nat =>
      (i : Int) * (d.time.getD 1 0 - d.time.getD 0 0)
        + dt.getD 0 0).take dt.length := by
    rw [take_map_range _ (by omega : dt.length ≤ n)]
    apply List.ext_getElem
    · simp
    · intro i hi1 hi2
      simp only [List.getElem_map, List.getElem_range]
      have hgd : dt.getD i 0 = dt[i] := by
        simp [List.getD_eq_getElem?_getD, List.getElem?_eq_getElem hi1]
      rw [← hgd, hcons i hi1, htime i (by omega)]
      ring
  have hlentrue : (dt.length ≤ ((List.range n).map fun i : Nat =>
      (i : Int) * (d.time.getD 1 0 - d.time.getD 0 0)
        + dt.getD 0 0).length) = True := by
    simp only [List.length_map, List.length_range]
    exact eq_true (by omega)
  have htaketrue : (dt = ((List.range n).map fun i : Nat =>
      (i : Int) * (d.time.getD 1 0 - d.time.getD 0 0)
        + dt.getD 0 0).take dt.length) = True := eq_true htake
  refine ⟨{ d with
      time := (List.range n).map fun i : Nat =>
        (i : Int) * (d.time.getD 1 0 - d.time.getD 0 0) + d.time.getD 0 0,
      datetime := some ((List.range n).map fun i : Nat =>
        (i : Int) * (d.time.getD 1 0 - d.time.getD 0 0) + dt.getD 0 0),
      vars := add_day_progress_names (add_year_progress_names
        (drop_progress_vars d.vars)) }, ?_, rfl, ?_, ?_⟩
  · unfold extend_dataset_in_time extend_body
    rw [if_pos hf]
    simp only [e1, e0, hd, edt0, hchk, if_false, hnorm, hedt, hlentrue,
      htaketrue, if_true]
    unfold add_derived_vars
    rw [if_pos (by simp [hlon])]
  · show ((List.range n).map fun i : Nat =>
        (i : Int) * (d.time.getD 1 0 - d.time.getD 0 0)
          + d.time.getD 0 0).take d.time.length = d.time
    rw [take_map_range _ hn]
    apply List.ext_getElem
    · simp
    · intro i hi1 hi2
      simp only [List.getElem_map, List.getElem_range]
      have hgd : d.time.getD i 0 = d.time[i] := by
        simp [List.getD_eq_getElem?_getD, List.getElem?_eq_getElem hi2]
      rw [← hgd, htime i hi2]
      ring
  · exact ⟨_, rfl, htake.symm⟩

/-- Witness for C1: a two-step dataset with non-zero start offset extended
to four steps. -/
theorem extend_time_prefix_witness :
    ∃ e, extend_dataset_in_time ⟨[5, 7], some [100, 102], [], true, false, ["t"]⟩ 4
        supported_forcing_vars = .ok e ∧
      e.time = (List.range 4).map
        (fun i : Nat => (i : Int) * (([5, 7] : List Int).getD 1 0
            - ([5, 7] : List Int).getD 0 0)
          + ([5, 7] : List Int).getD 0 0) ∧
      e.time.take ([5, 7] : List Int).length = [5, 7] ∧
      ∃ edt, e.datetime = some edt ∧
        edt.take ([100, 102] : List Int).length = [100, 102] :=
  extend_time_prefix ⟨[5, 7], some [100, 102], [], true, false, ["t"]⟩ 4
    supported_forcing_vars [100, 102] rfl rfl rfl (by decide) (by decide)
    (by intro i hi
        simp only [List.length_cons, List.length_nil] at hi
        have hz : i = 0 := by omega
        subst hz
        decide)
    (by decide)
    (by intro i hi
        simp only [List.length_cons, List.length_nil] at hi
        match i, hi with
        | 0, _ => decide
        | 1, _ => decide)

end DataUtils
